import Mathlib

/-!
Verification development for `retico-googletts` (`retico_googletts/googletts.py`).

The embedding below translates the streaming-pacer core of the module:

* `GoogleTTSModule.process_update` (ingestion: event application, the
  re-synthesis trigger, chunking of the synthesized PCM bytes, and the
  append-vs-replace buffer policy, lines 283-316),
* the body of one iteration of `GoogleTTSModule._tts_thread` (the paced
  emission tick, lines 318-344), split into its sleep computation and its
  buffer/cursor/frame effect,
* `GoogleTTS.get_cache_path` (the content-hash cache key, lines 93-113).

PCM bytes are modelled as `List ℕ` (each entry one byte), audio frames as
`List ℕ`, and the frame buffer as `List (List ℕ)`.  The synthesis provider
(`GoogleTTS.tts`) performs network and file I/O and is therefore passed in as
an opaque function `tts : String → List ℕ`.  The `retico_core` event protocol
is external to this repository; its ADD/REVOKE/COMMIT handling is modelled
from the spec's description of the interface (ADD appends a fragment, REVOKE
removes a previously added fragment, COMMIT finalizes the utterance, and
`input_committed` reports whether the utterance was committed in the batch).
-/

namespace ReticoGoogleTTS

/-- Construction-time audio configuration of `GoogleTTSModule.__init__`
(lines 249-267): `samplerate` (default 44100), `samplewidth` (fixed 2) and
`frame_duration` (default 0.05, modelled as an exact rational). -/
structure Config where
  samplerate : ℕ
  samplewidth : ℕ
  frame_duration : ℚ
deriving DecidableEq

/-- Frame size in samples: `chunk_size = int(self.samplerate * self.frame_duration)`
(line 298).  Python `int()` truncates toward zero; for the nonnegative
products used here this agrees with `Rat.floor`, and `Int.toNat` clamps the
(unused) negative case to zero. -/
def Config.chunk_size (cfg : Config) : ℕ :=
  ⌊(cfg.samplerate : ℚ) * cfg.frame_duration⌋.toNat

/-- Frame size in bytes: `chunk_size_bytes = chunk_size * self.samplewidth`
(line 299). -/
def Config.chunk_size_bytes (cfg : Config) : ℕ :=
  cfg.chunk_size * cfg.samplewidth

/-- The three `retico_core.UpdateType` event kinds dispatched in
`process_update` (lines 287-293). -/
inductive UpdateType where
  | add
  | revoke
  | commit
deriving DecidableEq

/-- The mutable state of a `GoogleTTSModule` instance that the ingestion path
and the emission loop share: `current_input` (the ADD'ed text fragments),
`_latest_text`, `audio_buffer`, `audio_pointer` and `clear_after_finish`
(lines 269-274). -/
structure ModState where
  current_input : List String
  latest_text : String
  audio_buffer : List (List ℕ)
  audio_pointer : ℕ
  clear_after_finish : Bool
deriving DecidableEq

/-- The initial streaming state established by `__init__` (lines 269-274)
and re-established by `prepare_run` (lines 346-351): empty input, empty
last-synthesized text, empty buffer, cursor 0, drain-pending cleared. -/
def initState : ModState :=
  { current_input := []
    latest_text := ""
    audio_buffer := []
    audio_pointer := 0
    clear_after_finish := false }

/-- Effect of one event of the batch on the fragment list (lines 287-291):
ADD appends the fragment, REVOKE removes a previously added occurrence,
COMMIT leaves the fragment list unchanged.  Modelled from the spec:
`retico_core`'s `self.revoke(iu)` removal of an input IU is external to this
repository and is rendered as removal of the first matching fragment. -/
def applyEvent (ci : List String) (ev : String × UpdateType) : List String :=
  match ev.2 with
  | UpdateType.add => ci ++ [ev.1]
  | UpdateType.revoke => ci.erase ev.1
  | UpdateType.commit => ci

/-- Folds the event loop of `process_update` (lines 286-293) over the batch. -/
def applyEvents (ci : List String) (um : List (String × UpdateType)) : List String :=
  um.foldl applyEvent ci

/-- Modelled from the spec: `retico_core`'s `self.input_committed()`
(called at lines 296 and 313) reports that the current utterance was
finalized, i.e. that a COMMIT event was processed in this batch. -/
def input_committed (um : List (String × UpdateType)) : Bool :=
  um.any fun ev => ev.2 == UpdateType.commit

/-- `GoogleTTSModule.get_text` (lines 280-281): space-join of the currently
ADD'ed fragments. -/
def get_text (ci : List String) : String :=
  String.intercalate " " ci

/-- The re-synthesis condition of line 296:
`self.input_committed() or len(current_text) - len(self._latest_text) > 40`.
The length difference is Python `int` arithmetic, hence computed in `ℤ`. -/
def synthesisTrigger (committed : Bool) (current_text latest_text : String) : Bool :=
  committed || decide ((current_text.length : ℤ) - (latest_text.length : ℤ) > 40)

/-- Zero-padding of a short chunk (lines 305-306): a chunk shorter than
`chunk_size_bytes` is extended with zero bytes to full length. -/
def padChunk (cs : ℕ) (chunk : List ℕ) : List ℕ :=
  if chunk.length < cs then chunk ++ List.replicate (cs - chunk.length) 0 else chunk

/-- The chunking `while` loop of lines 301-308, with the loop counter `i`
rendered by dropping consumed bytes.  The loop is modelled with explicit
fuel; one iteration consumes at least one byte whenever `0 < cs`, so fuel
equal to the input length (as supplied by `chunkAudio`) is always enough.
`rest.drop (cs - 1)` equals `(a :: rest).drop cs` for `0 < cs`.  (For
`cs = 0` the Python loop would not terminate; all results about chunking
assume `0 < cs`.) -/
def chunkLoop (cs : ℕ) : ℕ → List ℕ → List (List ℕ)
  | _, [] => []
  | 0, _ :: _ => []
  | fuel + 1, a :: rest =>
      padChunk cs ((a :: rest).take cs) :: chunkLoop cs fuel (rest.drop (cs - 1))

/-- Splits synthesized PCM bytes into `cs`-byte frames, zero-padding the
final short frame (lines 301-308). -/
def chunkAudio (cs : ℕ) (new_audio : List ℕ) : List (List ℕ) :=
  chunkLoop cs new_audio.length new_audio

/-- `GoogleTTSModule.process_update` (lines 283-316) acting on the shared
state.  The synthesis provider `GoogleTTS.tts` (network/file I/O) is the
opaque parameter `tts`.  Returns the new state together with the text passed
to the provider (`some current_text` exactly when line 300 ran, `none`
otherwise).  An empty batch returns immediately (line 284-285).  When the
trigger of line 296 fires, `_latest_text` is set to `current_text`
(line 297) and the chunked frames are appended to the buffer if
`clear_after_finish` is set, else they replace it (lines 309-312).  If the
input was committed, `clear_after_finish` is set and `current_input` is
cleared (lines 313-315). -/
def process_update (cfg : Config) (tts : String → List ℕ) (s : ModState)
    (um : List (String × UpdateType)) : ModState × Option String :=
  if um = [] then (s, none)
  else
    let ci := applyEvents s.current_input um
    let committed := input_committed um
    let current_text := get_text ci
    if synthesisTrigger committed current_text s.latest_text then
      let new_buffer := chunkAudio cfg.chunk_size_bytes (tts current_text)
      let buf := if s.clear_after_finish then s.audio_buffer ++ new_buffer else new_buffer
      (⟨if committed then [] else ci, current_text, buf, s.audio_pointer,
        if committed then true else s.clear_after_finish⟩, some current_text)
    else
      (⟨if committed then [] else ci, s.latest_text, s.audio_buffer, s.audio_pointer,
        if committed then true else s.clear_after_finish⟩, none)

/-- The buffer/cursor/frame effect of one iteration of `_tts_thread`
(lines 328-340): if the cursor has reached or passed the end of the buffer,
the emitted frame is `b"\x00" * samplewidth * int(samplerate * frame_duration)`
(all-zero silence) and, if `clear_after_finish` is set, the cursor is reset
to 0, the buffer is cleared and the flag is cleared; otherwise the frame at
the cursor is emitted (`getD` returns exactly that element since the cursor
is in range in this branch) and the cursor advances by one.  Returns the new
state and the emitted raw frame. -/
def tts_tick (cfg : Config) (s : ModState) : ModState × List ℕ :=
  if s.audio_pointer ≥ s.audio_buffer.length then
    let raw_audio := List.replicate (cfg.samplewidth * cfg.chunk_size) 0
    if s.clear_after_finish then
      ({ s with audio_pointer := 0, audio_buffer := [], clear_after_finish := false },
        raw_audio)
    else
      (s, raw_audio)
  else
    ({ s with audio_pointer := s.audio_pointer + 1 },
      s.audio_buffer.getD s.audio_pointer [])

/-- The sleep computation at the top of each `_tts_thread` iteration
(lines 321-326), as a function of the frame duration and the elapsed time
`t1 - t2` since the previous tick: if the elapsed time is below
`frame_duration` the loop sleeps a full `frame_duration`, otherwise it
sleeps `max(2 * frame_duration - elapsed, 0)`. -/
def tick_sleep (frame_duration elapsed : ℚ) : ℚ :=
  if elapsed < frame_duration then frame_duration
  else max (2 * frame_duration - elapsed) 0

/-- The cursor invariant stated by the spec (section 3):
`0 <= cursor <= len(buffer)`.  The lower bound is inherent in `ℕ`. -/
def bufferInv (s : ModState) : Prop :=
  s.audio_pointer ≤ s.audio_buffer.length

instance (s : ModState) : Decidable (bufferInv s) :=
  inferInstanceAs (Decidable (s.audio_pointer ≤ s.audio_buffer.length))

/-- `GoogleTTS.CACHING_DIR` (line 45). -/
def CACHING_DIR : String := "~/.cache/gtts_cache/"

/-- The byte stream fed to the `blake2b` hash in `GoogleTTS.get_cache_path`
(lines 104-110): the UTF-8 bytes of the text, the voice name, the language
code, the wav codec, `str(wav_sample_rate)` and `str(speaking_rate)`, in
that order.  Successive `h.update` calls hash the concatenation of their
arguments, and UTF-8 encoding commutes with string concatenation, so the
stream is rendered as the concatenated string.  The numeric fields are
passed in their `str()` rendering. -/
def cacheKeyInput (text voice_name language_code wav_codec sample_rate_str
    speaking_rate_str : String) : String :=
  text ++ voice_name ++ language_code ++ wav_codec ++ sample_rate_str ++
    speaking_rate_str

/-- Lower-case hexadecimal digit character for a value below 16. -/
def hexDigitChar (n : ℕ) : Char :=
  if n < 10 then Char.ofNat (48 + n) else Char.ofNat (87 + n)

/-- Two-character hexadecimal rendering of one digest byte. -/
def hexByte (b : ℕ) : List Char :=
  [hexDigitChar (b / 16), hexDigitChar (b % 16)]

/-- `h.hexdigest()` (line 111): lower-case hexadecimal rendering of the
digest bytes, two characters per byte. -/
def hexdigest (digest : List ℕ) : String :=
  String.mk (digest.flatMap hexByte)

/-- `GoogleTTS.get_cache_path` (lines 93-113) with the `blake2b` digest
(an external hashing library, `digest_size=16`) abstracted as an opaque
function `H` from the hashed byte stream to the 16 digest bytes:
`os.path.join(CACHING_DIR, text_digest)`, where `CACHING_DIR` ends in a
path separator, concatenates the directory and the hex digest. -/
def get_cache_path (H : String → List ℕ) (text voice_name language_code
    wav_codec sample_rate_str speaking_rate_str : String) : String :=
  CACHING_DIR ++ hexdigest (H (cacheKeyInput text voice_name language_code
    wav_codec sample_rate_str speaking_rate_str))

/-- Small concrete configuration used by witnesses: 40 samples per second,
width 2, 50-millisecond frames, hence 2 samples and 4 bytes per frame. -/
def cfgEx : Config :=
  { samplerate := 40, samplewidth := 2, frame_duration := 1 / 20 }

/-- Opaque provider used by witnesses: synthesizes no audio. -/
def tts0 : String → List ℕ := fun _ => []

/-- Opaque provider used by witnesses: six one-bytes of audio for any text. -/
def tts1 : String → List ℕ := fun _ => List.replicate 6 1

/-- Concrete frame size of `cfgEx`: `int(40 * 0.05) * 2 = 4` bytes. -/
theorem cfgEx_chunk_size_bytes : cfgEx.chunk_size_bytes = 4 := by
  norm_num [Config.chunk_size_bytes, Config.chunk_size, cfgEx]
  rfl

/-- C5 counterexample: with `frame_duration = 1/20` and elapsed time
`1/40 < frame_duration`, the loop sleeps the full `1/20`, not the remaining
`1/20 - 1/40` that the claim states. -/
theorem C5_sleep_counterexample :
    tick_sleep (1 / 20) (1 / 40) = 1 / 20
      ∧ tick_sleep (1 / 20) (1 / 40) ≠ 1 / 20 - 1 / 40 := by
  have h : tick_sleep (1 / 20) (1 / 40) = 1 / 20 := by
    simp only [tick_sleep]
    rw [if_pos (by norm_num)]
  refine ⟨h, ?_⟩
  rw [h]
  norm_num

/-- C5 (amended): for every elapsed time `e` since the previous emission
tick, if `e < frame_duration` the loop sleeps a full `frame_duration`
period (not the remaining `frame_duration - e`), and if
`e ≥ frame_duration` it sleeps exactly `max (2 * frame_duration - e) 0`. -/
theorem C5_sleep_amended (fd e : ℚ) :
    (e < fd → tick_sleep fd e = fd)
      ∧ (fd ≤ e → tick_sleep fd e = max (2 * fd - e) 0) := by
  constructor
  · intro h
    simp only [tick_sleep]
    rw [if_pos h]
  · intro h
    simp only [tick_sleep]
    rw [if_neg (not_lt.mpr h)]

/-- C5 witness: the amended sleep policy at `frame_duration = 1/20` with
elapsed times `1/40` (under budget) and `1/10` (overrun). -/
theorem C5_sleep_amended_witness :
    tick_sleep (1 / 20) (1 / 40) = 1 / 20
      ∧ tick_sleep (1 / 20) (1 / 10) = max (2 * (1 / 20) - 1 / 10) 0 :=
  ⟨(C5_sleep_amended (1 / 20) (1 / 40)).1 (by norm_num),
   (C5_sleep_amended (1 / 20) (1 / 10)).2 (by norm_num)⟩

/-- C9: an emission tick with the cursor at or past the end of the buffer
(in particular an empty buffer with cursor 0) and drain-pending false
leaves the whole state unchanged and emits an all-zero frame of exactly
`samplewidth * int(samplerate * frame_duration)` bytes. -/
theorem C9_silence_tick (cfg : Config) (s : ModState)
    (h1 : s.audio_buffer.length ≤ s.audio_pointer)
    (h2 : s.clear_after_finish = false) :
    (tts_tick cfg s).1 = s
      ∧ ((tts_tick cfg s).2).length = cfg.samplewidth * cfg.chunk_size
      ∧ ∀ b ∈ (tts_tick cfg s).2, b = 0 := by
  have ht : tts_tick cfg s = (s, List.replicate (cfg.samplewidth * cfg.chunk_size) 0) := by
    simp only [tts_tick, ge_iff_le, if_pos h1, h2]
    simp
  rw [ht]
  refine ⟨rfl, by simp, ?_⟩
  intro b hb
  exact List.eq_of_mem_replicate hb

/-- C9 witness: a tick on the initial state (empty buffer, cursor 0,
drain-pending false) leaves the state unchanged and emits zeros. -/
theorem C9_silence_tick_witness :
    (tts_tick cfgEx initState).1 = initState
      ∧ ((tts_tick cfgEx initState).2).length = cfgEx.samplewidth * cfgEx.chunk_size
      ∧ ∀ b ∈ (tts_tick cfgEx initState).2, b = 0 :=
  C9_silence_tick cfgEx initState (by decide) (by decide)

/-- C1: one emission tick on buffer `B` of length `L` with cursor `c`:
if `c < L` it emits the frame at index `c` and advances the cursor to
`c + 1`, leaving the buffer and the drain-pending flag unchanged; if
`c ≥ L` it emits a silence frame and, when drain-pending is set, it
additionally resets the cursor to 0, clears the buffer and clears the
flag. -/
theorem C1_tick_step (cfg : Config) (s : ModState) :
    (∀ h : s.audio_pointer < s.audio_buffer.length,
        tts_tick cfg s
          = ({ s with audio_pointer := s.audio_pointer + 1 },
             s.audio_buffer.get ⟨s.audio_pointer, h⟩))
      ∧ (s.audio_buffer.length ≤ s.audio_pointer →
          ((tts_tick cfg s).2 = List.replicate (cfg.samplewidth * cfg.chunk_size) 0
            ∧ (s.clear_after_finish = true →
                (tts_tick cfg s).1
                  = { s with
                      audio_pointer := 0, audio_buffer := [],
                      clear_after_finish := false }))) := by
  constructor
  · intro h
    simp only [tts_tick, ge_iff_le, if_neg (not_le.mpr h)]
    rw [List.getD_eq_getElem s.audio_buffer [] h, List.get_eq_getElem]
  · intro h
    have hbase : (if s.clear_after_finish = true then
        ({ s with audio_pointer := 0, audio_buffer := [], clear_after_finish := false },
          List.replicate (cfg.samplewidth * cfg.chunk_size) 0)
      else (s, List.replicate (cfg.samplewidth * cfg.chunk_size) 0)) = tts_tick cfg s := by
      simp only [tts_tick, ge_iff_le, if_pos h]
    constructor
    · rw [← hbase]
      cases hc : s.clear_after_finish <;> simp
    · intro hc
      rw [← hbase, if_pos hc]

/-- C1 witness: a tick on a one-frame buffer with cursor 0 emits that frame
and advances the cursor to 1. -/
theorem C1_tick_step_witness :
    tts_tick cfgEx
        { current_input := [], latest_text := "", audio_buffer := [[7, 8, 9, 10]],
          audio_pointer := 0, clear_after_finish := false }
      = ({ current_input := [], latest_text := "", audio_buffer := [[7, 8, 9, 10]],
           audio_pointer := 0 + 1, clear_after_finish := false }, [7, 8, 9, 10]) :=
  (C1_tick_step cfgEx
    { current_input := [], latest_text := "", audio_buffer := [[7, 8, 9, 10]],
      audio_pointer := 0, clear_after_finish := false }).1 (by decide)

/-- C2: processing a (nonempty) batch invokes the synthesis provider if and
only if the batch committed the utterance or the length of the joined
current text exceeds the length of the last-synthesized text by more than
40 characters. -/
theorem C2_trigger_iff (cfg : Config) (tts : String → List ℕ) (s : ModState)
    (um : List (String × UpdateType)) (h : um ≠ []) :
    ((process_update cfg tts s um).2).isSome = true ↔
      (input_committed um = true ∨
        ((get_text (applyEvents s.current_input um)).length : ℤ)
          - (s.latest_text.length : ℤ) > 40) := by
  have key : ((process_update cfg tts s um).2).isSome
      = synthesisTrigger (input_committed um)
          (get_text (applyEvents s.current_input um)) s.latest_text := by
    simp only [process_update, if_neg h]
    cases h2 : synthesisTrigger (input_committed um)
        (get_text (applyEvents s.current_input um)) s.latest_text <;> simp [h2]
  rw [key]
  simp [synthesisTrigger]

/-- C2 witness: a COMMIT on a one-word utterance always triggers synthesis,
and a single short uncommitted ADD (growth 1 ≤ 40) does not. -/
theorem C2_trigger_iff_witness :
    ((process_update cfgEx tts0 initState [("h", UpdateType.commit)]).2).isSome = true
      ∧ ((process_update cfgEx tts0 initState [("h", UpdateType.add)]).2).isSome = false :=
  ⟨(C2_trigger_iff cfgEx tts0 initState [("h", UpdateType.commit)]
      (by decide)).mpr (Or.inl (by decide)),
   by
    have h2 := C2_trigger_iff cfgEx tts0 initState [("h", UpdateType.add)] (by decide)
    simp only [Bool.eq_false_iff]
    intro hcon
    have := h2.mp hcon
    revert this
    decide⟩

/-- C3: whenever a (nonempty) batch triggers synthesis, the new buffer is
the old buffer with the freshly chunked frames appended if drain-pending
(`clear_after_finish`) is set, and exactly the freshly chunked frames (the
old buffer wholly discarded) if it is not. -/
theorem C3_append_vs_replace (cfg : Config) (tts : String → List ℕ) (s : ModState)
    (um : List (String × UpdateType)) (h : um ≠ [])
    (htrig : synthesisTrigger (input_committed um)
      (get_text (applyEvents s.current_input um)) s.latest_text = true) :
    (s.clear_after_finish = true →
        (process_update cfg tts s um).1.audio_buffer
          = s.audio_buffer ++ chunkAudio cfg.chunk_size_bytes
              (tts (get_text (applyEvents s.current_input um))))
      ∧ (s.clear_after_finish = false →
        (process_update cfg tts s um).1.audio_buffer
          = chunkAudio cfg.chunk_size_bytes
              (tts (get_text (applyEvents s.current_input um)))) := by
  constructor <;> intro hcaf <;> simp [process_update, if_neg h, htrig, hcaf]

/-- C3 witness: a committed batch on the initial state (drain-pending
false) replaces the empty buffer with exactly the chunked synthesis
result; with a 4-byte frame size, 6 synthesized bytes chunk into one full
frame and one zero-padded frame. -/
theorem C3_append_vs_replace_witness :
    (process_update cfgEx tts1 initState [("hello", UpdateType.commit)]).1.audio_buffer
        = chunkAudio cfgEx.chunk_size_bytes
            (tts1 (get_text (applyEvents initState.current_input
              [("hello", UpdateType.commit)])))
      ∧ chunkAudio 4 (tts1 "") = [[1, 1, 1, 1], [1, 1, 0, 0]] :=
  ⟨(C3_append_vs_replace cfgEx tts1 initState [("hello", UpdateType.commit)]
      (by decide) (by decide)).2 rfl,
   by decide⟩

/-- C4 counterexample: after the committed batch `[ADD "hello", COMMIT]`
from the initial state, the last-synthesized-text tracker `_latest_text`
holds the committed text `"hello"`, not the empty string the claim
states (only `current_input` is cleared, line 315; `_latest_text` was set
to the synthesized text at line 297 and is never reset). -/
theorem C4_commit_reset_counterexample :
    (process_update cfgEx tts0 initState
        [("hello", UpdateType.add), ("hello", UpdateType.commit)]).1.latest_text
        = "hello"
      ∧ ("hello" : String) ≠ "" := by
  constructor
  · decide
  · decide

/-- C4 (amended): after a (nonempty) batch containing a COMMIT event, the
drain-pending flag is set and the accumulated utterance text is reset to
empty, but the last-synthesized-text tracker is set to the text synthesized
in that batch (the committed text), not reset to empty: the next
utterance's growth is measured against the committed text's length rather
than from zero. -/
theorem C4_commit_reset_amended (cfg : Config) (tts : String → List ℕ)
    (s : ModState) (um : List (String × UpdateType)) (h : um ≠ [])
    (hc : input_committed um = true) :
    (process_update cfg tts s um).1.clear_after_finish = true
      ∧ (process_update cfg tts s um).1.current_input = []
      ∧ (process_update cfg tts s um).1.latest_text
          = get_text (applyEvents s.current_input um) := by
  have htrig : synthesisTrigger true
      (get_text (applyEvents s.current_input um)) s.latest_text = true := by
    simp [synthesisTrigger]
  simp [process_update, if_neg h, hc, htrig]

/-- C4 witness: the amended statement at the batch `[ADD "hello", COMMIT]`
from the initial state. -/
theorem C4_commit_reset_amended_witness :
    (process_update cfgEx tts0 initState
        [("hello", UpdateType.add), ("hello", UpdateType.commit)]).1.clear_after_finish = true
      ∧ (process_update cfgEx tts0 initState
          [("hello", UpdateType.add), ("hello", UpdateType.commit)]).1.current_input = []
      ∧ (process_update cfgEx tts0 initState
          [("hello", UpdateType.add), ("hello", UpdateType.commit)]).1.latest_text
          = get_text (applyEvents initState.current_input
              [("hello", UpdateType.add), ("hello", UpdateType.commit)]) :=
  C4_commit_reset_amended cfgEx tts0 initState
    [("hello", UpdateType.add), ("hello", UpdateType.commit)] (by decide) (by decide)

/-- Auxiliary: chunking an empty byte list yields no frames, for any fuel. -/
theorem chunkLoop_nil (cs fuel : ℕ) : chunkLoop cs fuel [] = [] := by
  cases fuel <;> rfl

/-- Auxiliary: a chunk padded from a `take cs` prefix has length exactly `cs`. -/
theorem padChunk_take_length (cs : ℕ) (l : List ℕ) :
    (padChunk cs (l.take cs)).length = cs := by
  simp only [padChunk]
  split
  case isTrue h =>
    simp only [List.length_append, List.length_replicate]
    omega
  case isFalse h =>
    simp only [List.length_take] at h ⊢
    omega

/-- Auxiliary: taking the pre-padding length back out of a padded chunk
recovers the chunk. -/
theorem padChunk_take_self (cs : ℕ) (l : List ℕ) :
    (padChunk cs l).take l.length = l := by
  simp only [padChunk]
  split
  · exact List.take_left l _
  · exact List.take_length l

/-- Auxiliary: concatenating the frames produced by the chunk loop and
trimming back to the input length recovers the input, for any fuel bound
at least the input length. -/
theorem chunkLoop_join_take (cs : ℕ) (hcs : 0 < cs) :
    ∀ (fuel : ℕ) (audio : List ℕ), audio.length ≤ fuel →
      ((chunkLoop cs fuel audio).flatten).take audio.length = audio := by
  intro fuel
  induction fuel with
  | zero =>
    intro audio h
    have ha : audio = [] := List.eq_nil_of_length_eq_zero (Nat.le_zero.mp h)
    subst ha
    simp [chunkLoop_nil]
  | succ n ih =>
    intro audio h
    match audio with
    | [] => simp [chunkLoop_nil]
    | a :: rest =>
      obtain ⟨m, rfl⟩ : ∃ m, cs = m + 1 := ⟨cs - 1, by omega⟩
      rw [show chunkLoop (m + 1) (n + 1) (a :: rest)
          = padChunk (m + 1) ((a :: rest).take (m + 1))
              :: chunkLoop (m + 1) n (rest.drop (m + 1 - 1)) from rfl]
      simp only [Nat.add_sub_cancel]
      by_cases hle : (a :: rest).length ≤ m + 1
      · have htake : (a :: rest).take (m + 1) = a :: rest := List.take_of_length_le hle
        have hdrop : rest.drop m = [] := by
          refine List.drop_eq_nil_of_le ?_
          simp only [List.length_cons] at hle
          omega
        rw [htake, hdrop, chunkLoop_nil]
        simp only [List.flatten_cons, List.flatten_nil, List.append_nil]
        exact padChunk_take_self (m + 1) (a :: rest)
      · push_neg at hle
        have htake_len : ((a :: rest).take (m + 1)).length = m + 1 := by
          simp only [List.length_take]
          omega
        have hpad : padChunk (m + 1) ((a :: rest).take (m + 1))
            = (a :: rest).take (m + 1) := by
          simp only [padChunk, htake_len]
          simp
        have hdrop : rest.drop m = (a :: rest).drop (m + 1) := rfl
        have hlen : ((a :: rest).drop (m + 1)).length ≤ n := by
          simp only [List.length_drop, List.length_cons]
          simp only [List.length_cons] at h
          omega
        have hih := ih ((a :: rest).drop (m + 1)) hlen
        rw [hpad, hdrop, List.flatten_cons, List.take_append_eq_append_take]
        rw [List.take_of_length_le (by rw [htake_len]; omega), htake_len]
        rw [show (a :: rest).length - (m + 1) = ((a :: rest).drop (m + 1)).length by
          simp [List.length_drop]]
        rw [hih, List.take_append_drop]

/-- Auxiliary: the number of frames produced by the chunk loop is the
ceiling of the input length over the frame size, for any fuel bound at
least the input length. -/
theorem chunkLoop_length (cs : ℕ) (hcs : 0 < cs) :
    ∀ (fuel : ℕ) (audio : List ℕ), audio.length ≤ fuel →
      (chunkLoop cs fuel audio).length = (audio.length + cs - 1) / cs := by
  intro fuel
  induction fuel with
  | zero =>
    intro audio h
    have ha : audio = [] := List.eq_nil_of_length_eq_zero (Nat.le_zero.mp h)
    subst ha
    rw [chunkLoop_nil]
    simp only [List.length_nil]
    rw [Nat.div_eq_of_lt (by omega)]
  | succ n ih =>
    intro audio h
    match audio with
    | [] =>
      rw [chunkLoop_nil]
      simp only [List.length_nil]
      rw [Nat.div_eq_of_lt (by omega)]
    | a :: rest =>
      obtain ⟨m, rfl⟩ : ∃ m, cs = m + 1 := ⟨cs - 1, by omega⟩
      rw [show chunkLoop (m + 1) (n + 1) (a :: rest)
          = padChunk (m + 1) ((a :: rest).take (m + 1))
              :: chunkLoop (m + 1) n (rest.drop (m + 1 - 1)) from rfl]
      have hlen : (rest.drop m).length ≤ n := by
        simp only [List.length_drop]
        simp only [List.length_cons] at h
        omega
      simp only [Nat.add_sub_cancel, List.length_cons]
      rw [ih (rest.drop m) hlen]
      simp only [List.length_drop]
      have hrhs : rest.length + 1 + (m + 1) - 1 = rest.length + (m + 1) := by omega
      rw [hrhs, Nat.add_div_right _ (Nat.succ_pos m)]
      by_cases hm : m ≤ rest.length
      · have h1 : rest.length - m + (m + 1) - 1 = rest.length := by omega
        rw [h1]
      · have h1 : rest.length - m + (m + 1) - 1 = m := by omega
        rw [h1, Nat.div_eq_of_lt (by omega), Nat.div_eq_of_lt (by omega)]

/-- Auxiliary: every frame produced by the chunk loop has length exactly
`cs`. -/
theorem chunkLoop_sizes (cs : ℕ) :
    ∀ (fuel : ℕ) (audio : List ℕ) (c : List ℕ),
      c ∈ chunkLoop cs fuel audio → c.length = cs := by
  intro fuel
  induction fuel with
  | zero =>
    intro audio c hc
    cases audio with
    | nil => rw [chunkLoop_nil] at hc; cases hc
    | cons a rest => cases hc
  | succ n ih =>
    intro audio c hc
    match audio with
    | [] => rw [chunkLoop_nil] at hc; cases hc
    | a :: rest =>
      rw [show chunkLoop cs (n + 1) (a :: rest)
          = padChunk cs ((a :: rest).take cs)
              :: chunkLoop cs n (rest.drop (cs - 1)) from rfl] at hc
      rcases List.mem_cons.mp hc with h1 | h2
      · rw [h1]
        exact padChunk_take_length cs (a :: rest)
      · exact ih (rest.drop (cs - 1)) c h2

/-- C6: chunking is lossless: concatenating in order all frames produced
from an N-byte PCM input and trimming back to N bytes (removing exactly the
zero bytes padded onto the final short frame) reproduces the input. -/
theorem C6_chunk_lossless (cs : ℕ) (hcs : 0 < cs) (new_audio : List ℕ) :
    ((chunkAudio cs new_audio).flatten).take new_audio.length = new_audio :=
  chunkLoop_join_take cs hcs new_audio.length new_audio (Nat.le_refl _)

/-- C6 witness: 3 bytes chunked at frame size 2 give `[[1, 2], [3, 0]]`;
joining and trimming to 3 bytes recovers `[1, 2, 3]`. -/
theorem C6_chunk_lossless_witness :
    ((chunkAudio 2 [1, 2, 3]).flatten).take (List.length [1, 2, 3]) = [1, 2, 3]
      ∧ chunkAudio 2 [1, 2, 3] = [[1, 2], [3, 0]] :=
  ⟨C6_chunk_lossless 2 (by decide) [1, 2, 3], by decide⟩

/-- C7: chunking an N-byte input at frame size `cs` produces exactly
`ceil(N / cs) = (N + cs - 1) / cs` frames, each of exactly `cs` bytes; in
particular a 0-byte input yields zero frames. -/
theorem C7_chunk_count_size (cs : ℕ) (hcs : 0 < cs) (new_audio : List ℕ) :
    (chunkAudio cs new_audio).length = (new_audio.length + cs - 1) / cs
      ∧ ∀ c ∈ chunkAudio cs new_audio, c.length = cs :=
  ⟨chunkLoop_length cs hcs new_audio.length new_audio (Nat.le_refl _),
   fun c hc => chunkLoop_sizes cs new_audio.length new_audio c hc⟩

/-- C7 witness: a 0-byte input chunks into zero frames (not one padded
frame), and 6 bytes at frame size 4 chunk into `(6 + 3) / 4 = 2` frames. -/
theorem C7_chunk_count_size_witness :
    ((chunkAudio 4 ([] : List ℕ)).length = (List.length ([] : List ℕ) + 4 - 1) / 4
        ∧ (chunkAudio 4 ([] : List ℕ)).length = 0)
      ∧ (chunkAudio 4 (List.replicate 6 1)).length
          = (List.length (List.replicate 6 1) + 4 - 1) / 4 :=
  ⟨⟨(C7_chunk_count_size 4 (by decide) []).1, by decide⟩,
   (C7_chunk_count_size 4 (by decide) (List.replicate 6 1)).1⟩

/-- Concrete state used by the C8 counterexample: a one-frame buffer whose
only frame has already been emitted (cursor 1), drain-pending false. -/
def sC8 : ModState :=
  { current_input := []
    latest_text := ""
    audio_buffer := [[0, 0, 0, 0]]
    audio_pointer := 1
    clear_after_finish := false }

/-- C8 counterexample: the invariant `cursor ≤ len(buffer)` holds in `sC8`,
yet the ingestion batch `[COMMIT "x"]` (whose synthesis returns no audio,
so the chunked frame list is empty) wholesale-replaces the buffer while the
cursor stays 1, leaving `cursor = 1 > 0 = len(buffer)`: the invariant is
not preserved by every ingestion batch. -/
theorem C8_inv_counterexample :
    bufferInv sC8
      ∧ ¬ bufferInv (process_update cfgEx tts0 sC8 [("x", UpdateType.commit)]).1 := by
  constructor
  · decide
  · decide

/-- C8 (amended): the invariant `0 ≤ cursor ≤ len(buffer)` holds in the
initial state, is preserved by every emission tick, and is preserved by an
ingestion batch whenever drain-pending is set (append), or no synthesis
triggers, or the freshly chunked frame list is at least as long as the
cursor; an ingestion batch that (with drain-pending clear) replaces the
buffer with fewer frames than the cursor violates it.  `0 ≤ cursor` always
holds since the cursor is a natural number. -/
theorem C8_inv_preserved (cfg : Config) (tts : String → List ℕ) :
    bufferInv initState
      ∧ (∀ s : ModState, bufferInv s → bufferInv (tts_tick cfg s).1)
      ∧ (∀ (s : ModState) (um : List (String × UpdateType)),
          bufferInv s →
          (s.clear_after_finish = true
            ∨ synthesisTrigger (input_committed um)
                (get_text (applyEvents s.current_input um)) s.latest_text = false
            ∨ s.audio_pointer ≤ (chunkAudio cfg.chunk_size_bytes
                (tts (get_text (applyEvents s.current_input um)))).length) →
          bufferInv (process_update cfg tts s um).1) := by
  refine ⟨Nat.le_refl 0, ?_, ?_⟩
  · intro s hs
    by_cases h : s.audio_buffer.length ≤ s.audio_pointer
    · simp only [tts_tick, ge_iff_le, if_pos h]
      by_cases hc : s.clear_after_finish = true
      · simp [hc, bufferInv]
      · have hc2 : s.clear_after_finish = false := by
          revert hc
          cases s.clear_after_finish <;> simp
        simp only [hc2, Bool.false_eq_true, if_false]
        exact hs
    · push_neg at h
      simp only [tts_tick, ge_iff_le, if_neg (not_le.mpr h)]
      simp only [bufferInv] at hs ⊢
      show s.audio_pointer + 1 ≤ s.audio_buffer.length
      omega
  · intro s um hs hcond
    by_cases hemp : um = []
    · simp only [process_update, if_pos hemp]
      exact hs
    · simp only [process_update, if_neg hemp]
      by_cases htrig : synthesisTrigger (input_committed um)
          (get_text (applyEvents s.current_input um)) s.latest_text = true
      · rw [if_pos htrig]
        simp only [bufferInv]
        by_cases hcaf : s.clear_after_finish = true
        · simp only [hcaf, if_true]
          simp only [List.length_append]
          have hs2 : s.audio_pointer ≤ s.audio_buffer.length := hs
          omega
        · have hcaf2 : s.clear_after_finish = false := by
            revert hcaf
            cases s.clear_after_finish <;> simp
          rcases hcond with h1 | h2 | h3
          · exact absurd h1 hcaf
          · rw [htrig] at h2
            cases h2
          · simp only [hcaf2, Bool.false_eq_true, if_false]
            exact h3
      · rw [if_neg htrig]
        exact hs

/-- C8 witness: the amended preservation statement at the initial state,
for one emission tick and for one uncommitted ADD batch (which does not
trigger synthesis). -/
theorem C8_inv_preserved_witness :
    bufferInv (tts_tick cfgEx initState).1
      ∧ bufferInv (process_update cfgEx tts0 initState [("h", UpdateType.add)]).1 :=
  ⟨(C8_inv_preserved cfgEx tts0).2.1 initState (by decide),
   (C8_inv_preserved cfgEx tts0).2.2 initState [("h", UpdateType.add)] (by decide)
     (Or.inr (Or.inl (by decide)))⟩

/-- Auxiliary: the hexadecimal digest string has two characters per digest
byte. -/
theorem hexdigest_length (l : List ℕ) : (hexdigest l).length = 2 * l.length := by
  show (l.flatMap hexByte).length = 2 * l.length
  induction l with
  | nil => rfl
  | cons b t ih =>
    simp only [List.flatMap_cons, List.length_append, ih, hexByte,
      List.length_cons, List.length_nil]
    omega

/-- C10: the cache key is a pure deterministic function of the text and the
voice configuration: identical `(text, voice_name, language_code,
speaking_rate, codec, sample_rate)` tuples give the identical cache path;
the key (the hex digest of the 16-byte `blake2b` output, abstracted as an
opaque digest function) always has the fixed size 32; and the byte stream
fed to the hash differs whenever the language code, the speaking rate, or
the voice identity differs, so each of those fields feeds into the key. -/
theorem C10_cache_key (H : String → List ℕ) (hH : ∀ s, (H s).length = 16) :
    (∀ t v l c sr r t2 v2 l2 c2 sr2 r2, t = t2 → v = v2 → l = l2 → c = c2 →
        sr = sr2 → r = r2 →
        get_cache_path H t v l c sr r = get_cache_path H t2 v2 l2 c2 sr2 r2)
      ∧ (∀ t v l c sr r,
          (hexdigest (H (cacheKeyInput t v l c sr r))).length = 32)
      ∧ cacheKeyInput "hi" "en-US-Wavenet-A" "en-US" "pcm_s16le" "44100" "1.4"
          ≠ cacheKeyInput "hi" "en-US-Wavenet-A" "de-DE" "pcm_s16le" "44100" "1.4"
      ∧ cacheKeyInput "hi" "en-US-Wavenet-A" "en-US" "pcm_s16le" "44100" "1.4"
          ≠ cacheKeyInput "hi" "en-US-Wavenet-A" "en-US" "pcm_s16le" "44100" "1.0"
      ∧ cacheKeyInput "hi" "en-US-Wavenet-A" "en-US" "pcm_s16le" "44100" "1.4"
          ≠ cacheKeyInput "hi" "en-US-Wavenet-B" "en-US" "pcm_s16le" "44100" "1.4" := by
  refine ⟨?_, ?_, by decide, by decide, by decide⟩
  · intro t v l c sr r t2 v2 l2 c2 sr2 r2 h1 h2 h3 h4 h5 h6
    subst h1; subst h2; subst h3; subst h4; subst h5; subst h6
    rfl
  · intro t v l c sr r
    rw [hexdigest_length, hH]

/-- Opaque digest used by the C10 witness: constant 16-byte output. -/
def H0 : String → List ℕ := fun _ => List.replicate 16 0

/-- C10 witness: the fixed-size conjunct at a concrete digest function and
concrete configuration strings. -/
theorem C10_cache_key_witness :
    (hexdigest (H0 (cacheKeyInput "hi" "en-US-Wavenet-A" "en-US" "pcm_s16le"
        "44100" "1.4"))).length = 32 :=
  (C10_cache_key H0 (fun s => by simp [H0])).2.1 "hi" "en-US-Wavenet-A" "en-US"
    "pcm_s16le" "44100" "1.4"

end ReticoGoogleTTS
